import Mathlib

/-!
Verification development for the branded-fork maintenance tooling
(`script/brand/maintenance.cjs`, `script/brand/mergeDrivers/packageJsonBrand.sh`,
`script/brand/applyManifestOverlay.cjs`, `src/brand/common/toolNameMap.ts`).

The JavaScript is shallowly embedded: JSON documents become association lists
of string keys to `JVal` values, the merge/overlay/classification functions
become executable Lean functions, and the sync orchestrator becomes a pure
state-transformer over an explicit record of external-command outcomes.
-/

set_option maxHeartbeats 1000000

namespace Maint

/-- A JSON value, as produced by `JSON.parse`.  Objects are association lists
of key/value pairs (insertion order preserved, keys unique in parser output). -/
inductive JVal where
  | null
  | bool (b : Bool)
  | num (n : Int)
  | str (s : String)
  | arr (elems : List JVal)
  | obj (fields : List (String × JVal))

/-- A top-level JSON object document. -/
abbrev Obj := List (String × JVal)

/-- Property read `o[k]` on a JS object: first field with the given key. -/
def objGet : Obj → String → Option JVal
  | [], _ => none
  | (k, v) :: rest, key => if k = key then some v else objGet rest key

/-- Key-presence test, the JS `k in o` operator on an object. -/
def objHas (o : Obj) (k : String) : Bool :=
  (objGet o k).isSome

/-- Replace the value of every field named `k` (a parsed JSON object holds at
most one). -/
def setAll : Obj → String → JVal → Obj
  | [], _, _ => []
  | (k0, v0) :: rest, k, v =>
    if k0 = k then (k, v) :: setAll rest k v else (k0, v0) :: setAll rest k v

/-- Property write `o[k] = v`: update the existing field in place, else append. -/
def objSet (o : Obj) (k : String) (v : JVal) : Obj :=
  if objHas o k then setAll o k v else o ++ [(k, v)]

/-- Property delete `delete o[k]`. -/
def objDel : Obj → String → Obj
  | [], _ => []
  | (k0, v0) :: rest, k =>
    if k0 = k then objDel rest k else (k0, v0) :: objDel rest k

/-- JS truthiness of a JSON value. -/
def truthyV : JVal → Bool
  | .null => false
  | .bool b => b
  | .num n => decide (n ≠ 0)
  | .str s => decide (s ≠ "")
  | .arr _ => true
  | .obj _ => true

/-- JS truthiness of a possibly-undefined property read. -/
def truthy : Option JVal → Bool
  | none => false
  | some v => truthyV v

/-- `Object.entries` of a JSON value: fields of an object, indexed characters
of a string, indexed elements of an array, empty for primitives. -/
def jsEntries : JVal → List (String × JVal)
  | .obj fs => fs
  | .str s => s.data.enum.map (fun p => (toString p.1, JVal.str (String.mk [p.2])))
  | .arr xs => xs.enum.map (fun p => (toString p.1, p.2))
  | _ => []

/-- First-hit-wins combination of two lookups (`a` shadows `b`). -/
def orGet (a b : Option JVal) : Option JVal :=
  match a with
  | some v => some v
  | none => b

/-- The inner loop of the merge: for each entry of `es` whose key is not yet
present in the accumulated object, append it (`if (!(k in merged[sect])) merged[sect][k] = v`). -/
def addMissing (tgt : Obj) (es : List (String × JVal)) : Obj :=
  es.foldl (fun acc e => if objHas acc e.1 then acc else acc ++ [e]) tgt

/-- The fixed list of dependency-like section keys the merge treats specially. -/
def depSections : List String :=
  ["dependencies", "devDependencies", "optionalDependencies", "peerDependencies"]

/-- The value `merged[sect] || {}`: the current section value when truthy,
else a fresh empty object. -/
def sectionBase (m : Obj) (sect : String) : JVal :=
  match objGet m sect with
  | some mv => if truthyV mv then mv else .obj []
  | none => .obj []

/-- One iteration of the merge's section loop.  Mirrors
`if (oursObj[sect]) { merged[sect] = merged[sect] || {}; for ... }`.
Returns `none` when the JS would throw a `TypeError` (using `in` against a
truthy non-object section value). -/
def processOne (ours : Obj) (sect : String) (m : Obj) : Option Obj :=
  match objGet ours sect with
  | none => some m
  | some lv =>
    if truthyV lv then
      match sectionBase m sect with
      | .obj tfs =>
        some (objSet (objSet m sect (.obj tfs)) sect (.obj (addMissing tfs (jsEntries lv))))
      | cur =>
        if (jsEntries lv).isEmpty then some (objSet m sect cur) else none
    else some m

/-- The section loop of the merge, over a list of section keys. -/
def processSections (ours : Obj) : List String → Obj → Option Obj
  | [], m => some m
  | s :: rest, m =>
    match processOne ours s m with
    | none => none
    | some m' => processSections ours rest m'

/-- The JSON Merge Resolver (`merge_json` in `packageJsonBrand.sh` and the
inline auto-resolution loop in `maintenance.cjs`): start from a copy of the
remote document, additively merge local-only dependency entries, then delete
the brand overlay fields `displayName` and `icon`. -/
def mergeJson (ours theirs : Obj) : Option Obj :=
  match processSections ours depSections theirs with
  | none => none
  | some m => some (objDel (objDel m "displayName") "icon")

/-! ## Test Runner failure classification (`classifyInfraFailure`) -/

/-- Lower-case a character list (the effect of the regex `i` flag on literal
alternatives). -/
def lowerChars (l : List Char) : List Char :=
  l.map Char.toLower

/-- Does `pat` occur as a contiguous run inside the list? -/
def hasRun (pat : List Char) : List Char → Bool
  | [] => pat.isEmpty
  | c :: rest => pat.isPrefixOf (c :: rest) || hasRun pat rest

/-- Case-sensitive substring test (`/Duration/.test(out)`). -/
def containsCS (out pat : String) : Bool :=
  hasRun pat.data out.data

/-- Case-insensitive substring test (a literal alternative of a `/.../i` regex). -/
def containsCI (out pat : String) : Bool :=
  hasRun (lowerChars pat.data) (lowerChars out.data)

/-- A character matched by the regex class `\s` (common whitespace). -/
def isJsWs (c : Char) : Bool :=
  c = ' ' || c = '\t' || c = '\n' || c = '\r' || c = '\x0b' || c = '\x0c'

/-- Does the list start with the literal `test` (pattern already lower-cased)? -/
def startsTest : List Char → Bool
  | 't' :: 'e' :: 's' :: 't' :: _ => true
  | _ => false

/-- Does the list start with zero or more `\s` characters followed by `test`? -/
def wsStarThenTest : List Char → Bool
  | [] => false
  | c :: rest => startsTest (c :: rest) || (isJsWs c && wsStarThenTest rest)

/-- Does the list start with `0\s+test`? -/
def zeroWsTest : List Char → Bool
  | '0' :: c :: rest => isJsWs c && wsStarThenTest rest
  | _ => false

/-- Does the list start with the regex `0\/?0\s+tests?` (the optional trailing
`s?` never constrains an unanchored match)? -/
def zeroZeroTestAt : List Char → Bool
  | '0' :: rest =>
    zeroWsTest rest ||
      (match rest with
       | '/' :: r2 => zeroWsTest r2
       | _ => false)
  | _ => false

/-- Does predicate `p` hold at some suffix of the list (unanchored regex search)? -/
def anySuffix (p : List Char → Bool) : List Char → Bool
  | [] => p []
  | c :: rest => p (c :: rest) || anySuffix p rest

/-- `/0\/?0\s+tests?/i.test(out)`: the zero-tests-discovered pattern. -/
def zeroTestsPattern (out : String) : Bool :=
  anySuffix zeroZeroTestAt (lowerChars out.data)

/-- The Test Runner classification function `classifyInfraFailure(res)` from
`maintenance.cjs`: `true` means the failing output is classified as an
infrastructure failure rather than a genuine test failure. -/
def classifyInfraFailure (stdout stderr : String) : Bool :=
  let out := stdout ++ stderr
  if containsCI out "Channel closed" || containsCI out "ERR_IPC_CHANNEL_CLOSED" ||
      containsCI out "segmentation fault" || containsCI out "SIGSEGV" then true
  else if zeroTestsPattern out && containsCS out "Duration" then true
  else false

/-- Spec-side predicate, following the spec's words: the captured output
contains a known crash signature — a channel-closed / IPC-closed /
segmentation-fault / SIGSEGV string (case-insensitively), or the
zero-tests-discovered marker (a `0/0 tests` style report together with a
`Duration` line). -/
def containsKnownCrashSignature (out : String) : Bool :=
  containsCI out "Channel closed" || containsCI out "ERR_IPC_CHANNEL_CLOSED" ||
    containsCI out "segmentation fault" || containsCI out "SIGSEGV" ||
    (zeroTestsPattern out && containsCS out "Duration")

/-! ## Manifest Overlay Applier (`applyManifestOverlay.cjs`) -/

/-- One pass of `s.replace(/Copilot/gi, 'SWE Agent')`: the counter argument
skips the remaining characters of a just-matched occurrence. -/
def replaceCopilotAux : Nat → List Char → List Char
  | _, [] => []
  | Nat.succ k, _ :: rest => replaceCopilotAux k rest
  | 0, c :: rest =>
    if ("copilot".data).isPrefixOf (lowerChars (c :: rest)) then
      "SWE Agent".data ++ replaceCopilotAux 6 rest
    else c :: replaceCopilotAux 0 rest

/-- `String.replace` with the global case-insensitive pattern `Copilot`,
replacement `SWE Agent`. -/
def replaceCopilot (s : String) : String :=
  String.mk (replaceCopilotAux 0 s.data)

/-- The guard `original.displayName && original.displayName.startsWith('SWE Agent')`.
`none` models a JS `TypeError` (calling `.startsWith` on a truthy non-string). -/
def swePrefixCheck (v : JVal) : Option Bool :=
  match v with
  | .str s => if s = "" then some false else some (("SWE Agent".data).isPrefixOf s.data)
  | .null => some false
  | .bool b => if b then none else some false
  | .num n => if n = 0 then some false else none
  | .arr _ => none
  | .obj _ => none

/-- `original.description?.replace(/Copilot/gi, 'SWE Agent') || 'AI chat features
for software engineers'`.  `none` models a `TypeError` (`.replace` on a
non-nullish non-string). -/
def descValue (d : Obj) : Option JVal :=
  match objGet d "description" with
  | none => some (.str "AI chat features for software engineers")
  | some .null => some (.str "AI chat features for software engineers")
  | some (.str s) =>
    let r := replaceCopilot s
    some (.str (if r = "" then "AI chat features for software engineers" else r))
  | some _ => none

/-- The no-op guard of the overlay: `original.displayName &&
original.displayName.startsWith('SWE Agent')`. -/
def overlayGuard (d : Obj) : Option Bool :=
  match objGet d "displayName" with
  | none => some false
  | some v => swePrefixCheck v

/-- The Manifest Overlay Applier `main()` of `applyManifestOverlay.cjs`, as a
document transformer: `some d'` is the document persisted to `package.json`
(the input itself in the already-branded no-op case); `none` models an uncaught
exception, in which case nothing is written. -/
def applyManifestOverlay (d : Obj) : Option Obj :=
  match overlayGuard d with
  | none => none
  | some true => some d
  | some false =>
    match descValue d with
    | none => none
    | some desc =>
      some (objSet (objSet (objSet d "displayName" (.str "SWE Agent Chat"))
        "description" desc) "icon" (.str "assets/agent.png"))

/-! ## Contributed tool id mapping (`toolNameMap.ts`) -/

/-- `mapContributedToolId` from `src/brand/common/toolNameMap.ts`: rewrite a
leading `copilot_` to `agent_`, otherwise return the id unchanged.
(`id.replace(/^copilot_/, 'agent_')` under an `id.startsWith('copilot_')` guard.) -/
def mapContributedToolId (id : String) : String :=
  if ("copilot_".data).isPrefixOf id.data then
    String.mk ("agent_".data ++ id.data.drop 8)
  else id

/-! ## Sync Orchestrator (the `MAINT_AUTO_REBASE` section of `maintenance.cjs`)

External commands are abstracted by a `GitWorld` record holding the outcome
each command would report; the orchestrator is then a pure function from the
configuration flags and that record to a `SyncSt` record, which carries the
`autoSync` summary fields plus the ordered list of state-changing operations
attempted in each phase. -/

/-- A state-changing external operation attempted by the orchestrator. -/
inductive GitOp where
  | addAll
  | commitCmd
  | stashPush
  | rebaseCmd
  | mergeCmd
  | rebaseAbort
  | mergeAbort
  | writeManifest
  | addManifest
  | rebaseContinue
  | pushCmd
  | stashFinalPop
  | overlayRun
deriving DecidableEq, Repr

/-- The environment-variable configuration read at the top of the sync section. -/
structure SyncConfig where
  strategy : String
  tolerateConflict : Bool
  allowDirty : Bool
  stashDirty : Bool
  preSyncAutoCommit : Bool
  noVerify : Bool
  fallbackToMerge : Bool
  autoResolvePackageJson : Bool
  autoCommit : Bool
  autoPush : Bool

/-- Outcomes the external commands would report, fixed per invocation. -/
structure GitWorld where
  statusDirty : Bool
  divergence : Option (Nat × Nat)
  preAddOk : Bool
  preCommitVerifiedOk : Bool
  preCommitNoVerifyOk : Bool
  preCommitSha : String
  stashPushOk : Bool
  syncCmdOk : Bool
  pkgBrandCheck : Option Bool
  overlayOk : Bool
  revListAfterSync : Option (Nat × Nat)
  conflictFilesEarly : List String
  oursStage : Option Obj
  theirsStage : Option Obj
  addManifestOk : Bool
  rebaseContinueOk : Bool
  revListAfterContinue : Option (Nat × Nat)
  pkgBrandCheckInline : Option Bool
  fallbackMergeOk : Bool
  revListAfterMerge : Option (Nat × Nat)
  conflictFilesLate : List String
  postStatusDirty : Bool
  autoAddOk : Bool
  commitVerifiedOk : Bool
  commitNoVerifyOk : Bool
  headSha : String
  pushOk : Bool
  stashPopOk : Bool

/-- The `autoSync.commit` field: unset, the string `'no-changes'`, or a commit
record with a sha. -/
inductive CommitField where
  | unset
  | noChanges
  | committed (sha : String)
deriving DecidableEq, Repr

/-- The `autoSync` summary object plus run-wide bookkeeping: whether `fail()`
was called (`fatal`), the `summary.issues` entries pushed, and the operations
attempted, grouped by phase. -/
structure SyncSt where
  result : Option String
  performed : Bool
  postDivergence : Option (Nat × Nat)
  preSyncCommit : Option String
  commitInfo : CommitField
  pushed : Bool
  conflicts : Option (List String)
  aborted : Bool
  stashed : Bool
  reappliedOverlay : Option String
  fatal : Bool
  issues : List String
  gateOps : List GitOp
  syncOps : List GitOp
  commitOps : List GitOp
  pushOps : List GitOp
  restoreOps : List GitOp

/-- The initial `autoSync` record (`performed: false`, everything else unset). -/
def initSt : SyncSt :=
  ⟨none, false, none, none, .unset, false, none, false, false, none, false,
    [], [], [], [], [], []⟩

/-- Did the commit (with optional `--no-verify` retry) succeed?
When `noVerify` is set only the no-verify outcome counts; otherwise a failed
verified commit is retried once with `--no-verify`. -/
def commitAttemptOk (noVerify verifiedOk noVerifyOk : Bool) : Bool :=
  if noVerify then noVerifyOk else verifiedOk || noVerifyOk

/-- The commit commands issued by one commit-with-retry block. -/
def commitAttemptOps (noVerify verifiedOk : Bool) : List GitOp :=
  if noVerify then [GitOp.commitCmd]
  else if verifiedOk then [GitOp.commitCmd]
  else [GitOp.commitCmd, GitOp.commitCmd]

/-- The dirty-working-tree gate: pre-sync auto-commit, else stash, else
allow-dirty, else fatal `dirty-abort`. -/
def dirtyGate (cfg : SyncConfig) (w : GitWorld) (st : SyncSt) : SyncSt :=
  if w.statusDirty then
    if cfg.preSyncAutoCommit then
      let st1 := { st with gateOps := st.gateOps ++ [GitOp.addAll] }
      if w.preAddOk then
        let st2 := { st1 with gateOps := st1.gateOps ++ commitAttemptOps cfg.noVerify w.preCommitVerifiedOk }
        if commitAttemptOk cfg.noVerify w.preCommitVerifiedOk w.preCommitNoVerifyOk then
          { st2 with preSyncCommit := some w.preCommitSha }
        else
          { st2 with fatal := true, issues := st2.issues ++ ["Pre-sync auto commit failed"] }
      else st1
    else if cfg.stashDirty then
      let st1 := { st with gateOps := st.gateOps ++ [GitOp.stashPush] }
      if w.stashPushOk then { st1 with stashed := true } else st1
    else if cfg.allowDirty then st
    else { st with fatal := true, result := some "dirty-abort" }
  else st

/-- Post-success overlay re-application: read `package.json`, and when the
`displayName` brand marker is missing, run the overlay script.  `none` for the
check models a caught exception (`reappliedOverlay = 'failed'`). -/
def overlayRecheck (check : Option Bool) (ok : Bool) (st : SyncSt) : SyncSt :=
  match check with
  | none => { st with reappliedOverlay := some "failed" }
  | some true => st
  | some false =>
    { st with syncOps := st.syncOps ++ [GitOp.overlayRun],
              reappliedOverlay := some (if ok then "ok" else "error") }

/-- The overlay re-check after inline auto-resolution (its `try` swallows
errors and records nothing). -/
def overlayRecheckInline (check : Option Bool) (st : SyncSt) : SyncSt :=
  match check with
  | some false => { st with syncOps := st.syncOps ++ [GitOp.overlayRun] }
  | _ => st

/-- The `MAINT_AUTO_RESOLVE_PACKAGE_JSON` inline resolution block: when
`package.json` is among the conflicting paths, parse the two index stages, run
the JSON Merge Resolver, write and stage the result, and continue the rebase.
Any exception is caught and leaves the state as it was. -/
def inlineResolve (w : GitWorld) (st : SyncSt) : SyncSt :=
  if "package.json" ∈ w.conflictFilesEarly then
    match w.oursStage, w.theirsStage with
    | some ours, some theirs =>
      (match mergeJson ours theirs with
       | none => st
       | some _ =>
         let st1 := { st with syncOps := st.syncOps ++ [GitOp.writeManifest, GitOp.addManifest] }
         if w.addManifestOk then
           let st2 := { st1 with syncOps := st1.syncOps ++ [GitOp.rebaseContinue] }
           if w.rebaseContinueOk then
             let st3 := { st2 with performed := true, result := some "ok" }
             let st4 :=
               match w.revListAfterContinue with
               | some d => { st3 with postDivergence := some d }
               | none => st3
             overlayRecheckInline w.pkgBrandCheckInline st4
           else st2
         else st1)
    | _, _ => st
  else st

/-- Was a positive behind-count measured (`divergence && divergence.behind > 0`)? -/
def behindPos : Option (Nat × Nat) → Bool
  | some p => decide (0 < p.1)
  | none => false

/-- The success branch of the sync attempt: mark performed/ok, re-apply the
overlay when the brand marker is gone, recompute divergence. -/
def syncSuccessPath (w : GitWorld) (st : SyncSt) : SyncSt :=
  let st2 := { st with performed := true, result := some "ok" }
  let st3 := overlayRecheck w.pkgBrandCheck w.overlayOk st2
  match w.revListAfterSync with
  | some d => { st3 with postDivergence := some d }
  | none => st3

/-- The `MAINT_FALLBACK_TO_MERGE` block: abort the rebase and try a merge. -/
def fallbackBlock (cfg : SyncConfig) (w : GitWorld) (st : SyncSt) : SyncSt :=
  if cfg.strategy = "rebase" ∧ cfg.fallbackToMerge then
    let sta := { st with syncOps := st.syncOps ++ [GitOp.rebaseAbort, GitOp.mergeCmd] }
    if w.fallbackMergeOk then
      let stb := { sta with performed := true, result := some "ok-merge-fallback" }
      match w.revListAfterMerge with
      | some d => { stb with postDivergence := some d }
      | none => stb
    else sta
  else st

/-- The unconditional conflict-reporting block at the end of the failure path:
collect conflicting files, overwrite an unset (or `'ok'`) result with
`'conflict'`, abort the in-progress operation, and report. -/
def conflictReport (cfg : SyncConfig) (w : GitWorld) (st : SyncSt) : SyncSt :=
  let st4 :=
    if st.result = none ∨ st.result = some "ok" then
      { st with result := some "conflict" }
    else st
  let st5 := { st4 with conflicts := some w.conflictFilesLate }
  let st6 :=
    if cfg.strategy = "rebase" then
      { st5 with syncOps := st5.syncOps ++ [GitOp.rebaseAbort], aborted := true }
    else
      { st5 with syncOps := st5.syncOps ++ [GitOp.mergeAbort], aborted := true }
  if cfg.tolerateConflict then
    { st6 with issues := st6.issues ++ ["Upstream sync conflict (tolerated)"] }
  else
    { st6 with fatal := true, issues := st6.issues ++ ["Upstream sync conflict"] }

/-- The failure branch of the sync attempt, in program order: inline
auto-resolution, merge fallback, then the conflict-reporting block. -/
def syncFailurePath (cfg : SyncConfig) (w : GitWorld) (st : SyncSt) : SyncSt :=
  let st2 := if cfg.autoResolvePackageJson then inlineResolve w st else st
  conflictReport cfg w (fallbackBlock cfg w st2)

/-- The sync attempt: run the configured strategy when behind, then the
success or failure branch; otherwise mark the run up-to-date. -/
def syncAttempt (cfg : SyncConfig) (w : GitWorld) (st : SyncSt) : SyncSt :=
  if behindPos w.divergence then
    let st1 := { st with syncOps := st.syncOps ++
      [if cfg.strategy = "merge" then GitOp.mergeCmd else GitOp.rebaseCmd] }
    if w.syncCmdOk then syncSuccessPath w st1 else syncFailurePath cfg w st1
  else
    { st with result := some "up-to-date" }

/-- The `MAINT_AUTO_COMMIT` block: only on a clean `'ok'` sync result with
residual modifications. -/
def autoCommitPhase (cfg : SyncConfig) (w : GitWorld) (st : SyncSt) : SyncSt :=
  if st.result = some "ok" ∧ cfg.autoCommit then
    if w.postStatusDirty then
      let st1 := { st with commitOps := st.commitOps ++ [GitOp.addAll] }
      if w.autoAddOk then
        let st2 := { st1 with commitOps := st1.commitOps ++ commitAttemptOps cfg.noVerify w.commitVerifiedOk }
        if commitAttemptOk cfg.noVerify w.commitVerifiedOk w.commitNoVerifyOk then
          { st2 with commitInfo := CommitField.committed w.headSha }
        else
          { st2 with fatal := true, issues := st2.issues ++ ["Auto commit failed"] }
      else st1
    else { st with commitInfo := CommitField.noChanges }
  else st

/-- The `MAINT_AUTO_PUSH` block: only when an auto-commit with a sha was made. -/
def autoPushPhase (cfg : SyncConfig) (w : GitWorld) (st : SyncSt) : SyncSt :=
  match st.commitInfo with
  | CommitField.committed _ =>
    if cfg.autoPush then
      let st1 := { st with pushOps := st.pushOps ++ [GitOp.pushCmd] }
      if w.pushOk then { st1 with pushed := true }
      else { st1 with fatal := true, issues := st1.issues ++ ["Auto push failed"] }
    else st
  | _ => st

/-- Final stash restoration when the dirty gate stashed. -/
def stashRestore (w : GitWorld) (st : SyncSt) : SyncSt :=
  if st.stashed then
    let st1 := { st with restoreOps := st.restoreOps ++ [GitOp.stashFinalPop] }
    if w.stashPopOk then st1
    else { st1 with issues := st1.issues ++ ["Failed to pop stash"] }
  else st

/-- The whole `MAINT_AUTO_REBASE` section in program order. -/
def syncPhase (cfg : SyncConfig) (w : GitWorld) : SyncSt :=
  stashRestore w (autoPushPhase cfg w (autoCommitPhase cfg w
    (syncAttempt cfg w (dirtyGate cfg w initSt))))

/-- The final exit-code derivation of `maintenance.cjs`: `process.exitCode`
after the steps is 1 when some step called `fail()` and 0 otherwise; then a
non-empty issues list forces a failing exit even without a fatal step. -/
def scriptExitCode (fatal : Bool) (issues : List String) : Nat :=
  let ec : Nat := if fatal then 1 else 0
  if ec ≠ 0 then ec
  else if issues.length ≠ 0 then 1
  else ec

/-! ## Concrete inputs used by witnesses and counterexample evaluations -/

/-- Local document of the remote-precedence example (spec §8 scenario). -/
def exOursA : Obj := [("dependencies", .obj [("a", .str "1")])]

/-- Remote document of the remote-precedence example. -/
def exTheirsA : Obj :=
  [("dependencies", .obj [("a", .str "2"), ("b", .str "3")]), ("displayName", .str "X")]

/-- The merged result of the remote-precedence example. -/
def exMergedA : Obj := [("dependencies", .obj [("a", .str "2"), ("b", .str "3")])]

/-- Local document with a section absent from the remote document. -/
def exOursB : Obj := [("optionalDependencies", .obj [("x", .str "7")])]

/-- Remote document without an `optionalDependencies` section. -/
def exTheirsB : Obj := [("dependencies", .obj [])]

/-- The merged result of the local-only-section example. -/
def exMergedB : Obj :=
  [("dependencies", .obj []), ("optionalDependencies", .obj [("x", .str "7")])]

/-- An unbranded manifest document. -/
def exManifest : Obj := [("name", .str "pkg"), ("description", .str "Copilot Chat")]

/-- The manifest after one overlay application. -/
def exManifestBranded : Obj :=
  [("name", .str "pkg"), ("description", .str "SWE Agent Chat"),
    ("displayName", .str "SWE Agent Chat"), ("icon", .str "assets/agent.png")]

/-- Baseline configuration: strategy `rebase`, every optional flag off. -/
def cfgBase : SyncConfig :=
  ⟨"rebase", false, false, false, false, false, false, false, false, false⟩

/-- Baseline world: clean tree, no divergence data, every command failing. -/
def worldBase : GitWorld :=
  ⟨false, none, false, false, false, "", false, false, some true, false, none,
    [], none, none, false, false, none, some true, false, none, [], false,
    false, false, false, "", false, false⟩

/-- Dirty tree with no handling flags, behind by 1, rebase would succeed. -/
def dirtyWorld : GitWorld :=
  { worldBase with
    statusDirty := true, divergence := some (1, 2),
    syncCmdOk := true, revListAfterSync := some (0, 3) }

/-- Configuration with only the package.json auto-resolution flag on. -/
def autoResolveCfg : SyncConfig := { cfgBase with autoResolvePackageJson := true }

/-- Rebase fails with `package.json` the only conflicting path and the inline
resolution (parse stages, merge, stage, continue) succeeding. -/
def inlineWorld : GitWorld :=
  { worldBase with
    divergence := some (1, 0), syncCmdOk := false,
    conflictFilesEarly := ["package.json"],
    oursStage := some [("dependencies", JVal.obj [("a", JVal.str "1")])],
    theirsStage := some [("dependencies", JVal.obj [("b", JVal.str "2")])],
    addManifestOk := true, rebaseContinueOk := true,
    revListAfterContinue := some (0, 1), conflictFilesLate := [] }

/-- Configuration with only the fallback-to-merge flag on. -/
def fallbackCfg : SyncConfig := { cfgBase with fallbackToMerge := true }

/-- Rebase fails and the fallback merge succeeds. -/
def fallbackWorld : GitWorld :=
  { worldBase with
    divergence := some (3, 1), syncCmdOk := false,
    fallbackMergeOk := true, revListAfterMerge := some (0, 4),
    conflictFilesLate := ["x.ts"] }

/-- Configuration with the auto-commit and auto-push flags on. -/
def pushyCfg : SyncConfig := { cfgBase with autoCommit := true, autoPush := true }

/-- Behind-count zero with residual modifications present. -/
def upToDateWorld : GitWorld :=
  { worldBase with divergence := some (0, 5), postStatusDirty := true }

/-! ## Association-list lemmas -/

theorem orGet_none (a : Option JVal) : orGet a none = a := by
  cases a <;> rfl

theorem objGet_append (o1 o2 : Obj) (k : String) :
    objGet (o1 ++ o2) k = orGet (objGet o1 k) (objGet o2 k) := by
  induction o1 with
  | nil => rfl
  | cons p rest ih =>
    obtain ⟨k0, v0⟩ := p
    by_cases h : k0 = k
    · simp [objGet, h, orGet]
    · simp [objGet, h, ih]

theorem objHas_false {o : Obj} {k : String} (h : objHas o k = false) :
    objGet o k = none := by
  unfold objHas at h
  cases hg : objGet o k
  · rfl
  · rw [hg] at h; simp at h

theorem objGet_setAll_self (o : Obj) (k : String) (v : JVal) (h : objHas o k = true) :
    objGet (setAll o k v) k = some v := by
  induction o with
  | nil => simp [objHas, objGet] at h
  | cons p rest ih =>
    obtain ⟨k0, v0⟩ := p
    by_cases hk : k0 = k
    · simp [setAll, objGet, hk]
    · have h' : objHas rest k = true := by
        simpa [objHas, objGet, hk] using h
      simp [setAll, objGet, hk, ih h']

theorem objGet_objSet_self (o : Obj) (k : String) (v : JVal) :
    objGet (objSet o k v) k = some v := by
  unfold objSet
  by_cases h : objHas o k
  · simp [h, objGet_setAll_self o k v h]
  · have hnone : objGet o k = none := objHas_false (by simpa using h)
    simp [h, objGet_append, hnone, objGet, orGet]

theorem objGet_setAll_other (o : Obj) (k key : String) (v : JVal) (h : k ≠ key) :
    objGet (setAll o k v) key = objGet o key := by
  induction o with
  | nil => rfl
  | cons p rest ih =>
    obtain ⟨k0, v0⟩ := p
    by_cases hk : k0 = k
    · subst hk
      simp [setAll, objGet, h, ih]
    · by_cases hkey : k0 = key
      · subst hkey
        simp [setAll, objGet, hk]
      · simp [setAll, objGet, hk, hkey, ih]

theorem objGet_objSet_other (o : Obj) (k key : String) (v : JVal) (h : k ≠ key) :
    objGet (objSet o k v) key = objGet o key := by
  unfold objSet
  by_cases hh : objHas o k
  · simp [hh, objGet_setAll_other o k key v h]
  · have h1 : objGet [(k, v)] key = none := by simp [objGet, h]
    simp [hh, objGet_append, h1, orGet_none]

theorem objGet_objDel_other (o : Obj) (k key : String) (h : k ≠ key) :
    objGet (objDel o k) key = objGet o key := by
  induction o with
  | nil => rfl
  | cons p rest ih =>
    obtain ⟨k0, v0⟩ := p
    by_cases hk : k0 = k
    · subst hk
      simp [objDel, objGet, h, ih]
    · by_cases hkey : k0 = key
      · subst hkey
        simp [objDel, objGet, hk]
      · simp [objDel, objGet, hk, hkey, ih]

theorem addMissing_cons_has (tgt : Obj) (e : String × JVal) (rest : List (String × JVal))
    (h : objHas tgt e.1 = true) :
    addMissing tgt (e :: rest) = addMissing tgt rest := by
  simp [addMissing, h]

theorem addMissing_cons_not (tgt : Obj) (e : String × JVal) (rest : List (String × JVal))
    (h : objHas tgt e.1 = false) :
    addMissing tgt (e :: rest) = addMissing (tgt ++ [e]) rest := by
  simp [addMissing, h]

theorem addMissing_get (es : List (String × JVal)) :
    ∀ (tgt : Obj) (k : String),
      objGet (addMissing tgt es) k = orGet (objGet tgt k) (objGet es k) := by
  induction es with
  | nil =>
    intro tgt k
    simp [addMissing, objGet, orGet_none]
  | cons e rest ih =>
    intro tgt k
    obtain ⟨k0, v0⟩ := e
    cases h0 : objHas tgt k0 with
    | true =>
      rw [addMissing_cons_has tgt (k0, v0) rest h0, ih tgt k]
      cases hg : objGet tgt k with
      | none =>
        have hk : k0 ≠ k := by
          intro he
          subst he
          rw [objHas, hg] at h0
          simp at h0
        simp [objGet, hk, orGet]
      | some v => simp [orGet]
    | false =>
      rw [addMissing_cons_not tgt (k0, v0) rest h0, ih (tgt ++ [(k0, v0)]) k, objGet_append]
      have hnone : objGet tgt k0 = none := objHas_false h0
      by_cases hk : k0 = k
      · subst hk
        simp [hnone, objGet, orGet]
      · have h1 : objGet [(k0, v0)] k = none := by simp [objGet, hk]
        rw [h1, orGet_none]
        simp [objGet, hk]

/-! ## Merge resolver lemmas -/

theorem sectionBase_obj (m : Obj) (s : String) (tfs : List (String × JVal))
    (hm : objGet m s = some (.obj tfs)) : sectionBase m s = .obj tfs := by
  unfold sectionBase
  rw [hm]
  rfl

theorem sectionBase_absent (m : Obj) (s : String)
    (hm : objGet m s = none) : sectionBase m s = .obj [] := by
  unfold sectionBase
  rw [hm]

theorem processOne_get_other (ours : Obj) (s key : String) (m m' : Obj)
    (hne : s ≠ key) (h : processOne ours s m = some m') :
    objGet m' key = objGet m key := by
  unfold processOne at h
  split at h
  · cases h
    rfl
  · split at h
    · split at h
      · cases h
        rw [objGet_objSet_other _ _ _ _ hne, objGet_objSet_other _ _ _ _ hne]
      · split at h
        · cases h
          rw [objGet_objSet_other _ _ _ _ hne]
        · cases h
    · cases h
      rfl

theorem processOne_obj (ours : Obj) (s : String) (m : Obj) (lfs tfs : List (String × JVal))
    (hl : objGet ours s = some (.obj lfs)) (hm : objGet m s = some (.obj tfs)) :
    processOne ours s m =
      some (objSet (objSet m s (.obj tfs)) s (.obj (addMissing tfs lfs))) := by
  unfold processOne
  split
  · next heq => rw [hl] at heq; cases heq
  · next lv heq =>
      rw [hl] at heq
      cases heq
      have htv : truthyV (JVal.obj lfs) = true := rfl
      rw [if_pos htv, sectionBase_obj m s tfs hm]
      rfl

theorem processOne_absent (ours : Obj) (s : String) (m : Obj) (lfs : List (String × JVal))
    (hl : objGet ours s = some (.obj lfs)) (hm : objGet m s = none) :
    processOne ours s m =
      some (objSet (objSet m s (.obj [])) s (.obj (addMissing [] lfs))) := by
  unfold processOne
  split
  · next heq => rw [hl] at heq; cases heq
  · next lv heq =>
      rw [hl] at heq
      cases heq
      have htv : truthyV (JVal.obj lfs) = true := rfl
      rw [if_pos htv, sectionBase_absent m s hm]
      rfl

theorem processSections_not_mem (ours : Obj) (sect : String) :
    ∀ (sects : List String) (m m2 : Obj), sect ∉ sects →
      processSections ours sects m = some m2 → objGet m2 sect = objGet m sect := by
  intro sects
  induction sects with
  | nil =>
    intro m m2 _ h
    cases h
    rfl
  | cons s rest ih =>
    intro m m2 hmem h
    unfold processSections at h
    cases hp : processOne ours s m with
    | none => rw [hp] at h; cases h
    | some m1 =>
      rw [hp] at h
      have hne : s ≠ sect := fun he => hmem (he ▸ List.mem_cons_self s rest)
      have h1 := processOne_get_other ours s sect m m1 hne hp
      have h2 := ih m1 m2 (fun hc => hmem (List.mem_cons_of_mem s hc)) h
      rw [h2, h1]

theorem processSections_mem (ours : Obj) (sect : String) :
    ∀ (sects : List String) (m m2 : Obj), sects.Nodup → sect ∈ sects →
      processSections ours sects m = some m2 →
      ∃ ma mb, processOne ours sect ma = some mb ∧
        objGet ma sect = objGet m sect ∧ objGet m2 sect = objGet mb sect := by
  intro sects
  induction sects with
  | nil =>
    intro m m2 _ hmem
    cases hmem
  | cons s rest ih =>
    intro m m2 hnd hmem h
    unfold processSections at h
    cases hp : processOne ours s m with
    | none => rw [hp] at h; cases h
    | some m1 =>
      rw [hp] at h
      rcases List.mem_cons.mp hmem with he | hmem'
      · subst he
        refine ⟨m, m1, hp, rfl, ?_⟩
        exact processSections_not_mem ours sect rest m1 m2 (List.nodup_cons.mp hnd).1 h
      · have hns : s ≠ sect := by
          intro he
          exact (List.nodup_cons.mp hnd).1 (he ▸ hmem')
        obtain ⟨ma, mb, hone, hgm, hg2⟩ := ih m1 m2 (List.nodup_cons.mp hnd).2 hmem' h
        refine ⟨ma, mb, hone, ?_, hg2⟩
        rw [hgm, processOne_get_other ours s sect m m1 hns hp]

theorem depSections_nodup : depSections.Nodup := by
  decide

theorem depSections_not_overlay (sect : String) (h : sect ∈ depSections) :
    sect ≠ "displayName" ∧ sect ≠ "icon" := by
  simp only [depSections, List.mem_cons, List.not_mem_nil, or_false] at h
  rcases h with rfl | rfl | rfl | rfl <;> exact ⟨by decide, by decide⟩

theorem mergeJson_get_sect (ours theirs merged : Obj) (sect : String)
    (hsect : sect ∈ depSections) (h : mergeJson ours theirs = some merged) :
    ∃ ma mb, processOne ours sect ma = some mb ∧
      objGet ma sect = objGet theirs sect ∧ objGet merged sect = objGet mb sect := by
  unfold mergeJson at h
  cases hp : processSections ours depSections theirs with
  | none => rw [hp] at h; cases h
  | some m =>
    rw [hp] at h
    cases h
    obtain ⟨hdn, hic⟩ := depSections_not_overlay sect hsect
    obtain ⟨ma, mb, hone, hgm, hg2⟩ :=
      processSections_mem ours sect depSections theirs m depSections_nodup hsect hp
    refine ⟨ma, mb, hone, hgm, ?_⟩
    rw [objGet_objDel_other _ _ _ (Ne.symm hic), objGet_objDel_other _ _ _ (Ne.symm hdn), hg2]

/-! ## Claim C1 -/

/-- C1: for every dependency-like section key present in both the local and the
remote document, the JSON Merge Resolver's output carries the remote value for
every key present in both sections — a key that exists in the remote document
is never overwritten by the local one. -/
theorem mergeJson_remote_precedence (ours theirs merged : Obj) (sect k : String)
    (tfs lfs : List (String × JVal)) (v w : JVal)
    (hsect : sect ∈ depSections)
    (hmerge : mergeJson ours theirs = some merged)
    (ht : objGet theirs sect = some (.obj tfs))
    (hl : objGet ours sect = some (.obj lfs))
    (htk : objGet tfs k = some v)
    (hlk : objGet lfs k = some w) :
    ∃ fs, objGet merged sect = some (JVal.obj fs) ∧ objGet fs k = some v := by
  obtain ⟨ma, mb, hone, hgm, hg2⟩ := mergeJson_get_sect ours theirs merged sect hsect hmerge
  rw [ht] at hgm
  have hchar := processOne_obj ours sect ma lfs tfs hl hgm
  rw [hone] at hchar
  cases hchar
  refine ⟨addMissing tfs lfs, ?_, ?_⟩
  · rw [hg2, objGet_objSet_self]
  · rw [addMissing_get, htk]
    rfl

/-- Witness for C1 at the spec's §8 scenario: local pins `a = "1"`, remote has
`a = "2", b = "3"`; the merged section keeps the remote `"2"`. -/
theorem mergeJson_remote_precedence_witness :
    ∃ fs, objGet exMergedA "dependencies" = some (JVal.obj fs) ∧
      objGet fs "a" = some (JVal.str "2") :=
  mergeJson_remote_precedence exOursA exTheirsA exMergedA "dependencies" "a"
    [("a", .str "2"), ("b", .str "3")] [("a", .str "1")] (.str "2") (.str "1")
    (by decide) rfl rfl rfl rfl rfl

/-! ## Claim C2 -/

/-- C2: every dependency-section key defined locally but absent from the remote
document survives into the merged output with exactly the local value, and a
section existing only locally appears in the merged result populated exactly
with the local entries. -/
theorem mergeJson_local_additive (ours theirs merged : Obj) (sect k : String)
    (lfs : List (String × JVal)) (v : JVal)
    (hsect : sect ∈ depSections)
    (hmerge : mergeJson ours theirs = some merged)
    (hl : objGet ours sect = some (.obj lfs))
    (hlk : objGet lfs k = some v)
    (hremote : objGet theirs sect = none ∨
      ∃ tfs, objGet theirs sect = some (.obj tfs) ∧ objGet tfs k = none) :
    (∃ fs, objGet merged sect = some (JVal.obj fs) ∧ objGet fs k = some v) ∧
    (objGet theirs sect = none →
      ∃ fs, objGet merged sect = some (JVal.obj fs) ∧
        ∀ key, objGet fs key = objGet lfs key) := by
  obtain ⟨ma, mb, hone, hgm, hg2⟩ := mergeJson_get_sect ours theirs merged sect hsect hmerge
  rcases hremote with hnone | ⟨tfs, ht, htk⟩
  · rw [hnone] at hgm
    have hchar := processOne_absent ours sect ma lfs hl hgm
    rw [hone] at hchar
    cases hchar
    constructor
    · refine ⟨addMissing [] lfs, ?_, ?_⟩
      · rw [hg2, objGet_objSet_self]
      · rw [addMissing_get, hlk]
        rfl
    · intro _
      refine ⟨addMissing [] lfs, ?_, fun key => ?_⟩
      · rw [hg2, objGet_objSet_self]
      · rw [addMissing_get]
        rfl
  · rw [ht] at hgm
    have hchar := processOne_obj ours sect ma lfs tfs hl hgm
    rw [hone] at hchar
    cases hchar
    constructor
    · refine ⟨addMissing tfs lfs, ?_, ?_⟩
      · rw [hg2, objGet_objSet_self]
      · rw [addMissing_get, htk, hlk]
        rfl
    · intro hcontra
      rw [ht] at hcontra
      cases hcontra

/-- Witness for C2 at the spec's §8 scenario: `optionalDependencies` exists
only locally and survives into the merged result with exactly its entries. -/
theorem mergeJson_local_additive_witness :
    (∃ fs, objGet exMergedB "optionalDependencies" = some (JVal.obj fs) ∧
      objGet fs "x" = some (JVal.str "7")) ∧
    (objGet exTheirsB "optionalDependencies" = none →
      ∃ fs, objGet exMergedB "optionalDependencies" = some (JVal.obj fs) ∧
        ∀ key, objGet fs key = objGet [("x", JVal.str "7")] key) :=
  mergeJson_local_additive exOursB exTheirsB exMergedB "optionalDependencies" "x"
    [("x", .str "7")] (.str "7") (by decide) rfl rfl rfl (Or.inl rfl)

/-! ## Claim C3 -/

theorem ite_ite_or (a b : Bool) :
    (if a = true then true else if b = true then true else false) = (a || b) := by
  cases a <;> cases b <;> rfl

/-- C3: the Test Runner classification function classifies a failing captured
output as an infrastructure failure if and only if the combined output
contains a known crash signature (channel closed, `ERR_IPC_CHANNEL_CLOSED`,
segmentation fault, `SIGSEGV`, or the zero-tests-discovered marker); with no
signature present it never classifies the failure as infrastructural. -/
theorem classifyInfraFailure_iff_crash_signature (stdout stderr : String) :
    classifyInfraFailure stdout stderr = true ↔
      containsKnownCrashSignature (stdout ++ stderr) = true := by
  simp only [classifyInfraFailure, containsKnownCrashSignature]
  rw [ite_ite_or]

/-- Witness for C3: an output carrying the IPC-closed crash signature is
classified as an infrastructure failure. -/
theorem classifyInfraFailure_iff_crash_signature_witness :
    classifyInfraFailure "worker crashed: ERR_IPC_CHANNEL_CLOSED" "" = true :=
  (classifyInfraFailure_iff_crash_signature "worker crashed: ERR_IPC_CHANNEL_CLOSED" "").mpr
    (by decide)

/-! ## Claim C8 -/

/-- C8: the process exit signal of the maintenance run is zero if and only if
no step was marked fatal (`fail()` never ran) and the final issues list is
empty; a fatal step or a non-empty issues list each force a non-zero exit. -/
theorem scriptExitCode_zero_iff (fatal : Bool) (issues : List String) :
    scriptExitCode fatal issues = 0 ↔ (fatal = false ∧ issues = []) := by
  cases fatal <;> cases issues <;> simp [scriptExitCode]

/-- Witness for C8: a run with no fatal step and no issues exits zero. -/
theorem scriptExitCode_zero_iff_witness : scriptExitCode false [] = 0 :=
  (scriptExitCode_zero_iff false []).mpr ⟨rfl, rfl⟩

/-! ## Claim C9 -/

theorem overlayGuard_eq_str (d : Obj) (s : String)
    (hd : objGet d "displayName" = some (.str s)) :
    overlayGuard d = swePrefixCheck (.str s) := by
  unfold overlayGuard
  rw [hd]

theorem overlay_result_branded (d : Obj) (desc : JVal) :
    objGet (objSet (objSet (objSet d "displayName" (.str "SWE Agent Chat"))
        "description" desc) "icon" (.str "assets/agent.png")) "displayName" =
      some (.str "SWE Agent Chat") := by
  rw [objGet_objSet_other _ _ _ _ (by decide), objGet_objSet_other _ _ _ _ (by decide),
    objGet_objSet_self]

theorem overlay_result_fixed (d : Obj) (desc : JVal) :
    applyManifestOverlay (objSet (objSet (objSet d "displayName" (.str "SWE Agent Chat"))
        "description" desc) "icon" (.str "assets/agent.png")) =
      some (objSet (objSet (objSet d "displayName" (.str "SWE Agent Chat"))
        "description" desc) "icon" (.str "assets/agent.png")) := by
  unfold applyManifestOverlay
  rw [overlayGuard_eq_str _ _ (overlay_result_branded d desc)]
  rfl

/-- C9: the Manifest Overlay Applier is idempotent — whenever one application
persists a document, applying the overlay to that persisted document leaves it
unchanged; and a manifest whose `displayName` already carries the `SWE Agent`
brand prefix is left untouched (no-op). -/
theorem applyManifestOverlay_idempotent :
    (∀ d d2, applyManifestOverlay d = some d2 → applyManifestOverlay d2 = some d2) ∧
    (∀ d s, objGet d "displayName" = some (.str s) →
      ("SWE Agent".data).isPrefixOf s.data = true → applyManifestOverlay d = some d) := by
  constructor
  · intro d d2 h
    unfold applyManifestOverlay at h
    split at h
    · cases h
    · next heq =>
        cases h
        unfold applyManifestOverlay
        rw [heq]
    · next heq =>
        split at h
        · cases h
        · next desc hdesc =>
            cases h
            exact overlay_result_fixed d desc
  · intro d s hd hp
    have hs : s ≠ "" := by
      intro he
      subst he
      have hfalse : ("SWE Agent".data).isPrefixOf ("".data) = false := rfl
      rw [hfalse] at hp
      cases hp
    unfold applyManifestOverlay
    rw [overlayGuard_eq_str d s hd]
    have hcheck : swePrefixCheck (.str s) = some true := by
      show (if s = "" then some false
        else some (("SWE Agent".data).isPrefixOf s.data)) = some true
      rw [if_neg hs, hp]
    rw [hcheck]

/-- Witness for C9: applying the overlay to the already-branded result of a
first application is the identity. -/
theorem applyManifestOverlay_idempotent_witness :
    applyManifestOverlay exManifestBranded = some exManifestBranded :=
  applyManifestOverlay_idempotent.1 exManifest exManifestBranded rfl

/-! ## Claim C10 -/

/-- C10: the contributed-tool-id mapping is idempotent, because its output
never begins with the `copilot_` prefix it rewrites. -/
theorem mapContributedToolId_idempotent (id : String) :
    mapContributedToolId (mapContributedToolId id) = mapContributedToolId id ∧
    ("copilot_".data).isPrefixOf (mapContributedToolId id).data = false := by
  have key : ∀ t : List Char, ("copilot_".data).isPrefixOf ("agent_".data ++ t) = false :=
    fun t => rfl
  cases hp : ("copilot_".data).isPrefixOf id.data with
  | false =>
    constructor
    · simp [mapContributedToolId, hp]
    · simp [mapContributedToolId, hp]
  | true =>
    constructor
    · simp [mapContributedToolId, hp, key]
    · simp [mapContributedToolId, hp]
      rfl

/-- Witness for C10: mapping an already-mapped id is the identity. -/
theorem mapContributedToolId_idempotent_witness :
    mapContributedToolId (mapContributedToolId "copilot_edit") =
      mapContributedToolId "copilot_edit" :=
  (mapContributedToolId_idempotent "copilot_edit").1

/-! ## Sync Orchestrator phase lemmas -/

theorem dirtyGate_fields (cfg : SyncConfig) (w : GitWorld) (st : SyncSt) :
    (dirtyGate cfg w st).syncOps = st.syncOps ∧
    (dirtyGate cfg w st).commitOps = st.commitOps ∧
    (dirtyGate cfg w st).pushOps = st.pushOps ∧
    (dirtyGate cfg w st).commitInfo = st.commitInfo := by
  simp only [dirtyGate]
  repeat' split
  all_goals simp

theorem stashRestore_fields (w : GitWorld) (st : SyncSt) :
    (stashRestore w st).result = st.result ∧
    (stashRestore w st).performed = st.performed ∧
    (stashRestore w st).postDivergence = st.postDivergence ∧
    (stashRestore w st).syncOps = st.syncOps ∧
    (stashRestore w st).commitOps = st.commitOps ∧
    (stashRestore w st).pushOps = st.pushOps := by
  simp only [stashRestore]
  repeat' split
  all_goals simp

theorem autoCommitPhase_skip (cfg : SyncConfig) (w : GitWorld) (st : SyncSt)
    (h : st.result ≠ some "ok") : autoCommitPhase cfg w st = st := by
  simp only [autoCommitPhase]
  rw [if_neg (fun hc => h hc.1)]

theorem autoPushPhase_unset (cfg : SyncConfig) (w : GitWorld) (st : SyncSt)
    (h : st.commitInfo = CommitField.unset) : autoPushPhase cfg w st = st := by
  simp only [autoPushPhase, h]

theorem syncAttempt_upToDate (cfg : SyncConfig) (w : GitWorld) (st : SyncSt) (a : Nat)
    (h : w.divergence = some (0, a)) :
    syncAttempt cfg w st = { st with result := some "up-to-date" } := by
  have hb : behindPos w.divergence = false := by rw [h]; rfl
  simp [syncAttempt, hb]

theorem overlayRecheck_commitInfo (c : Option Bool) (ok : Bool) (st : SyncSt) :
    (overlayRecheck c ok st).commitInfo = st.commitInfo := by
  simp only [overlayRecheck]
  repeat' split
  all_goals simp

theorem overlayRecheckInline_commitInfo (c : Option Bool) (st : SyncSt) :
    (overlayRecheckInline c st).commitInfo = st.commitInfo := by
  simp only [overlayRecheckInline]
  repeat' split
  all_goals simp

theorem inlineResolve_commitInfo (w : GitWorld) (st : SyncSt) :
    (inlineResolve w st).commitInfo = st.commitInfo := by
  simp only [inlineResolve]
  repeat' split
  all_goals simp [overlayRecheckInline_commitInfo]

theorem syncSuccessPath_commitInfo (w : GitWorld) (st : SyncSt) :
    (syncSuccessPath w st).commitInfo = st.commitInfo := by
  simp only [syncSuccessPath]
  repeat' split
  all_goals simp [overlayRecheck_commitInfo]

theorem fallbackBlock_commitInfo (cfg : SyncConfig) (w : GitWorld) (st : SyncSt) :
    (fallbackBlock cfg w st).commitInfo = st.commitInfo := by
  simp only [fallbackBlock]
  repeat' split
  all_goals simp

theorem conflictReport_commitInfo (cfg : SyncConfig) (w : GitWorld) (st : SyncSt) :
    (conflictReport cfg w st).commitInfo = st.commitInfo := by
  simp only [conflictReport]
  repeat' split
  all_goals simp

theorem syncFailurePath_commitInfo (cfg : SyncConfig) (w : GitWorld) (st : SyncSt) :
    (syncFailurePath cfg w st).commitInfo = st.commitInfo := by
  simp only [syncFailurePath]
  rw [conflictReport_commitInfo, fallbackBlock_commitInfo]
  split
  · rw [inlineResolve_commitInfo]
  · rfl

theorem syncAttempt_commitInfo (cfg : SyncConfig) (w : GitWorld) (st : SyncSt) :
    (syncAttempt cfg w st).commitInfo = st.commitInfo := by
  simp only [syncAttempt]
  split
  · split
    · rw [syncSuccessPath_commitInfo]
    · rw [syncFailurePath_commitInfo]
  · rfl

/-! ## Claim C6 -/

/-- C6: when the measured behind-count is 0 the sync result is `'up-to-date'`,
the sync attempt performs no git mutation, and no auto-commit or auto-push
operation is attempted — for every configuration, in particular with the
auto-commit and auto-push flags set. -/
theorem behind_zero_up_to_date (cfg : SyncConfig) (w : GitWorld) (a : Nat)
    (h : w.divergence = some (0, a)) :
    (syncPhase cfg w).result = some "up-to-date" ∧
    (syncPhase cfg w).syncOps = [] ∧
    (syncPhase cfg w).commitOps = [] ∧
    (syncPhase cfg w).pushOps = [] := by
  unfold syncPhase
  obtain ⟨hso, hco, hpo, hci⟩ := dirtyGate_fields cfg w initSt
  have hciu : (dirtyGate cfg w initSt).commitInfo = CommitField.unset := hci.trans rfl
  rw [syncAttempt_upToDate cfg w (dirtyGate cfg w initSt) a h]
  rw [autoCommitPhase_skip cfg w
    { dirtyGate cfg w initSt with result := some "up-to-date" } (by simp)]
  rw [autoPushPhase_unset cfg w
    { dirtyGate cfg w initSt with result := some "up-to-date" } hciu]
  obtain ⟨hr5, _, _, hs5, hc5, hp5⟩ :=
    stashRestore_fields w { dirtyGate cfg w initSt with result := some "up-to-date" }
  refine ⟨?_, ?_, ?_, ?_⟩
  · rw [hr5]
  · rw [hs5]
    exact hso.trans rfl
  · rw [hc5]
    exact hco.trans rfl
  · rw [hp5]
    exact hpo.trans rfl

/-- Witness for C6: a concrete up-to-date run with the auto-commit and
auto-push flags set and a dirty post-sync status. -/
theorem behind_zero_up_to_date_witness :
    (syncPhase pushyCfg upToDateWorld).result = some "up-to-date" ∧
    (syncPhase pushyCfg upToDateWorld).syncOps = [] ∧
    (syncPhase pushyCfg upToDateWorld).commitOps = [] ∧
    (syncPhase pushyCfg upToDateWorld).pushOps = [] :=
  behind_zero_up_to_date pushyCfg upToDateWorld 5 rfl

/-! ## Claim C7 -/

theorem fallbackBlock_ok (cfg : SyncConfig) (w : GitWorld) (pb pa : Nat)
    (hstrat : cfg.strategy = "rebase") (hfb : cfg.fallbackToMerge = true)
    (hm : w.fallbackMergeOk = true) (hrl : w.revListAfterMerge = some (pb, pa))
    (st : SyncSt) :
    (fallbackBlock cfg w st).result = some "ok-merge-fallback" ∧
    (fallbackBlock cfg w st).performed = true ∧
    (fallbackBlock cfg w st).postDivergence = some (pb, pa) := by
  simp [fallbackBlock, hstrat, hfb, hm, hrl]

theorem conflictReport_fields (cfg : SyncConfig) (w : GitWorld) (st : SyncSt) :
    (conflictReport cfg w st).performed = st.performed ∧
    (conflictReport cfg w st).postDivergence = st.postDivergence := by
  simp only [conflictReport]
  repeat' split
  all_goals simp

theorem conflictReport_result_keep (cfg : SyncConfig) (w : GitWorld) (st : SyncSt)
    (h1 : st.result ≠ none) (h2 : st.result ≠ some "ok") :
    (conflictReport cfg w st).result = st.result := by
  have hif : (if st.result = none ∨ st.result = some "ok"
      then { st with result := some "conflict" } else st) = st :=
    if_neg (fun hc => hc.elim h1 h2)
  simp only [conflictReport, hif]
  repeat' split
  all_goals simp

theorem syncFailurePath_fallback (cfg : SyncConfig) (w : GitWorld) (pb pa : Nat)
    (hstrat : cfg.strategy = "rebase") (hfb : cfg.fallbackToMerge = true)
    (hm : w.fallbackMergeOk = true) (hrl : w.revListAfterMerge = some (pb, pa))
    (st : SyncSt) :
    (syncFailurePath cfg w st).result = some "ok-merge-fallback" ∧
    (syncFailurePath cfg w st).performed = true ∧
    (syncFailurePath cfg w st).postDivergence = some (pb, pa) := by
  simp only [syncFailurePath]
  obtain ⟨hr, hp, hd⟩ := fallbackBlock_ok cfg w pb pa hstrat hfb hm hrl
    (if cfg.autoResolvePackageJson then inlineResolve w st else st)
  obtain ⟨hcp, hcd⟩ := conflictReport_fields cfg w
    (fallbackBlock cfg w (if cfg.autoResolvePackageJson then inlineResolve w st else st))
  have hcr := conflictReport_result_keep cfg w
    (fallbackBlock cfg w (if cfg.autoResolvePackageJson then inlineResolve w st else st))
    (by rw [hr]; simp) (by rw [hr]; simp)
  refine ⟨?_, ?_, ?_⟩
  · rw [hcr, hr]
  · rw [hcp, hp]
  · rw [hcd, hd]

theorem syncAttempt_fallback (cfg : SyncConfig) (w : GitWorld) (pb pa : Nat)
    (hstrat : cfg.strategy = "rebase") (hfb : cfg.fallbackToMerge = true)
    (hbp : behindPos w.divergence = true)
    (hre : w.syncCmdOk = false) (hm : w.fallbackMergeOk = true)
    (hrl : w.revListAfterMerge = some (pb, pa)) (st : SyncSt) :
    (syncAttempt cfg w st).result = some "ok-merge-fallback" ∧
    (syncAttempt cfg w st).performed = true ∧
    (syncAttempt cfg w st).postDivergence = some (pb, pa) := by
  simp only [syncAttempt]
  rw [if_pos hbp, if_neg (by simp [hre])]
  exact syncFailurePath_fallback cfg w pb pa hstrat hfb hm hrl _

/-- C7: whenever the rebase strategy fails, the fallback-to-merge flag is on
and the fallback merge succeeds, the sync result is `'ok-merge-fallback'`,
`performed` is true, and `postDivergence` is the divergence measured after the
merge (not a value from the aborted rebase). -/
theorem rebase_fallback_merge_ok (cfg : SyncConfig) (w : GitWorld) (b a pb pa : Nat)
    (hstrat : cfg.strategy = "rebase") (hfb : cfg.fallbackToMerge = true)
    (hdiv : w.divergence = some (b, a)) (hb : 0 < b)
    (hre : w.syncCmdOk = false) (hm : w.fallbackMergeOk = true)
    (hrl : w.revListAfterMerge = some (pb, pa)) :
    (syncPhase cfg w).result = some "ok-merge-fallback" ∧
    (syncPhase cfg w).performed = true ∧
    (syncPhase cfg w).postDivergence = some (pb, pa) := by
  have hbp : behindPos w.divergence = true := by
    rw [hdiv]
    simpa [behindPos] using hb
  unfold syncPhase
  obtain ⟨hres, hperf, hpost⟩ :=
    syncAttempt_fallback cfg w pb pa hstrat hfb hbp hre hm hrl (dirtyGate cfg w initSt)
  obtain ⟨_, _, _, hci⟩ := dirtyGate_fields cfg w initSt
  have hcommit : autoCommitPhase cfg w (syncAttempt cfg w (dirtyGate cfg w initSt)) =
      syncAttempt cfg w (dirtyGate cfg w initSt) :=
    autoCommitPhase_skip cfg w _ (by rw [hres]; simp)
  rw [hcommit]
  have hpush : autoPushPhase cfg w (syncAttempt cfg w (dirtyGate cfg w initSt)) =
      syncAttempt cfg w (dirtyGate cfg w initSt) := by
    refine autoPushPhase_unset cfg w _ ?_
    rw [syncAttempt_commitInfo, hci]
    rfl
  rw [hpush]
  obtain ⟨hr5, hpf5, hpd5, _, _, _⟩ :=
    stashRestore_fields w (syncAttempt cfg w (dirtyGate cfg w initSt))
  exact ⟨by rw [hr5, hres], by rw [hpf5, hperf], by rw [hpd5, hpost]⟩

/-- Witness for C7: a concrete failed rebase recovered by the fallback merge. -/
theorem rebase_fallback_merge_ok_witness :
    (syncPhase fallbackCfg fallbackWorld).result = some "ok-merge-fallback" ∧
    (syncPhase fallbackCfg fallbackWorld).performed = true ∧
    (syncPhase fallbackCfg fallbackWorld).postDivergence = some (0, 4) :=
  rebase_fallback_merge_ok fallbackCfg fallbackWorld 3 1 0 4 rfl rfl rfl
    (by decide) rfl rfl rfl

/-! ## Claim C4 -/

/-- C4: the claim says a dirty tree with no handling flags yields result
`'dirty-abort'` with no further git operations attempted; but the code's
dirty-abort branch does not return, so with a positive behind-count the rebase
is still attempted, and on success it overwrites the result with `'ok'`.  Only
the fatal marking holds.  Evaluated at the failing input `dirtyWorld`. -/
theorem dirty_tree_gate_does_not_block_sync :
    (syncPhase cfgBase dirtyWorld).fatal = true ∧
    (syncPhase cfgBase dirtyWorld).result = some "ok" ∧
    (syncPhase cfgBase dirtyWorld).syncOps = [GitOp.rebaseCmd] ∧
    (syncPhase cfgBase dirtyWorld).performed = true :=
  ⟨rfl, rfl, rfl, rfl⟩

/-! ## Claim C5 -/

/-- C5: the claim says a successful inline package.json auto-resolution makes
the run continue as a clean success (`'ok'`, no conflict reported); but after
the inline block the code falls through into the conflict-reporting block,
which overwrites the `'ok'` result with `'conflict'`, aborts, and reports a
fatal upstream-sync conflict.  Evaluated at the failing input `inlineWorld`. -/
theorem inline_resolution_success_still_reported_conflict :
    (syncPhase autoResolveCfg inlineWorld).result = some "conflict" ∧
    (syncPhase autoResolveCfg inlineWorld).performed = true ∧
    (syncPhase autoResolveCfg inlineWorld).postDivergence = some (0, 1) ∧
    (syncPhase autoResolveCfg inlineWorld).fatal = true ∧
    (syncPhase autoResolveCfg inlineWorld).issues = ["Upstream sync conflict"] ∧
    (syncPhase autoResolveCfg inlineWorld).aborted = true ∧
    (syncPhase autoResolveCfg inlineWorld).syncOps =
      [GitOp.rebaseCmd, GitOp.writeManifest, GitOp.addManifest,
        GitOp.rebaseContinue, GitOp.rebaseAbort] :=
  ⟨rfl, rfl, rfl, rfl, rfl, rfl, rfl⟩

end Maint
